import Mathlib

/-!
Shallow embedding of the orchestration core of SkySimTacticalGG
(backend/app: utils/redis_client.py, router.py, orchestrator.py,
celery_tasks_agents.py, celery_orchestrator.py), with proofs about the
capacity ledger, the router, the task runners, the speculative race
coordinator and the orchestration pipeline.

Modelling conventions:
* Redis integer counters are a total map from key strings to integers;
  an absent key reads as 0, matching the source which ints a nil GET to
  0 and relies on INCRBY/DECRBY treating absent keys as 0.  TTLs only
  matter for wall-clock expiry, so expire arguments are carried but do
  not change the modelled counter state.
* Python dict/JSON values are the inductive type Value; exceptions are
  Except String; raising propagates the error value outward.
* Wall-clock time is abstracted: elapsed_s fields are 0 and every
  bounded wait is modelled by the discrete list of polls it performs.
-/

namespace SkySim

/-- A Python/JSON value as passed between agents and published as events. -/
inductive Value where
  | none
  | bool (b : Bool)
  | num (n : Int)
  | str (s : String)
  | list (items : List Value)
  | dict (fields : List (String × Value))
deriving Repr, BEq

/-- Python truthiness of a value (the test used by the `x or default` and
`if redis.get(k):` idioms in the source). -/
def Value.truthy : Value → Bool
  | .none => false
  | .bool b => b
  | .num n => decide (n ≠ 0)
  | .str s => !s.isEmpty
  | .list xs => !xs.isEmpty
  | .dict fs => !fs.isEmpty

/-- Python `d.get(k)` on a dict body: the stored value, or None when absent. -/
def dGet (fs : List (String × Value)) (k : String) : Value :=
  (fs.lookup k).getD Value.none

/-- Python `d.get(k, default)` on a dict body. -/
def dGetD (fs : List (String × Value)) (k : String) (default : Value) : Value :=
  (fs.lookup k).getD default

/-- Write one key of a dict body, keeping insertion order (Python dict update
of a single key). -/
def dictSet (fs : List (String × Value)) (k : String) (v : Value) : List (String × Value) :=
  if fs.any (fun p => p.1 = k) then
    fs.map (fun p => if p.1 = k then (k, v) else p)
  else
    fs ++ [(k, v)]

/-- Python dict merge semantics of updating dict `a` with every entry of `b`
(later keys win), as in a double-star merge of two dicts. -/
def dictUpdate (a b : List (String × Value)) : List (String × Value) :=
  b.foldl (fun acc p => dictSet acc p.1 p.2) a

/-- A Python double-star merge whose second operand is an arbitrary value:
succeeds exactly when that operand is a mapping, otherwise raises TypeError. -/
def starMerge (a : List (String × Value)) : Value → Except String (List (String × Value))
  | .dict fs => .ok (dictUpdate a fs)
  | _ => .error "TypeError: object is not a mapping"

/-! ## Capacity Ledger (utils/redis_client.py) -/

/-- The Redis integer keyspace: every key reads as an integer, absent as 0. -/
def CapStore := String → Int

/-- Point update of the keyspace. -/
def CapStore.set (s : CapStore) (k : String) (v : Int) : CapStore :=
  fun q => if q = k then v else s q

/-- `incr_capacity`: INCRBY key delta, optionally refreshing a TTL (which does
not change the counter), returning the new value together with the store. -/
def incr_capacity (s : CapStore) (key : String) (delta : Int) (_ex : Option Nat) :
    Int × CapStore :=
  (s key + delta, s.set key (s key + delta))

/-- `decr_capacity`: DECRBY key delta, returning the new value.  Note there is
no floor: Redis DECRBY takes the value negative when asked. -/
def decr_capacity (s : CapStore) (key : String) (delta : Int) : Int × CapStore :=
  (s key - delta, s.set key (s key - delta))

/-! ## Router (router.py) -/

/-- One entry of config/agents.yaml as the router reads it; optional fields
mirror dict.get with a default at every use site. -/
structure AgentCfg where
  capabilities : List String
  priority : Option Int
  max_concurrency : Option Int
  queue : Option String
deriving Repr, DecidableEq

/-- The empty config dict used by `self.config.get(agent_name, {})`. -/
def AgentCfg.empty : AgentCfg :=
  ⟨[], Option.none, Option.none, Option.none⟩

/-- The router: static agent config plus the Redis key prefix for counters. -/
structure Router where
  config : List (String × AgentCfg)
  redis_prefix : String
deriving Repr, DecidableEq

/-- `Router._key`. -/
def Router.key (r : Router) (agent_name : String) : String :=
  r.redis_prefix ++ agent_name

/-- `self.config.get(agent_name, {})`. -/
def Router.cfg (r : Router) (agent_name : String) : AgentCfg :=
  (r.config.lookup agent_name).getD AgentCfg.empty

/-- `Router.current_load`: int(GET key), nil read as 0. -/
def Router.current_load (r : Router) (s : CapStore) (agent_name : String) : Int :=
  s (r.key agent_name)

/-- `Router.capacity_ok`: current load strictly below max_concurrency
(default 1). -/
def Router.capacity_ok (r : Router) (s : CapStore) (agent_name : String) : Bool :=
  decide (r.current_load s agent_name < (r.cfg agent_name).max_concurrency.getD 1)

/-- `Router.reserve_slot`: INCRBY 1 with a 60s TTL refresh; if the new value
exceeds max_concurrency (default 1), DECRBY 1 back and report false. -/
def Router.reserve_slot (r : Router) (s : CapStore) (agent_name : String) :
    Bool × CapStore :=
  let key := r.key agent_name
  let vs := incr_capacity s key 1 (some 60)
  if vs.1 > (r.cfg agent_name).max_concurrency.getD 1 then
    (false, (decr_capacity vs.2 key 1).2)
  else
    (true, vs.2)

/-- `Router.release_slot`: DECRBY 1, returning the new value (no floor). -/
def Router.release_slot (r : Router) (s : CapStore) (agent_name : String) :
    Int × CapStore :=
  decr_capacity s (r.key agent_name) 1

/-- `any(c in caps for c in capabilities)`. -/
def matchesAny (caps requested : List String) : Bool :=
  requested.any (fun c => caps.contains c)

/-- The Python sort key `(-priority, current_load)` of one candidate. -/
def Router.sortKey (r : Router) (s : CapStore) (x : String × AgentCfg) : Int × Int :=
  (-(x.2.priority.getD 0), r.current_load s x.1)

/-- Ascending lexicographic comparison of sort keys, i.e. priority descending
with ties broken by current load ascending. -/
def keyLE (a b : Int × Int) : Bool :=
  decide (a.1 < b.1 ∨ (a.1 = b.1 ∧ a.2 ≤ b.2))

/-- Stable insertion into an ascending-sorted list: x goes before the first
element it compares less-or-equal to, so the original relative order of
equal keys survives. -/
def insertLE (le : α → α → Bool) (x : α) : List α → List α
  | [] => [x]
  | y :: ys => if le x y then x :: y :: ys else y :: insertLE le x ys

/-- Stable ascending sort with respect to le, as Python list.sort with a key
function is stable and ascending. -/
def pySort (le : α → α → Bool) : List α → List α
  | [] => []
  | x :: xs => insertLE le x (pySort le xs)

/-- `Router.choose_agents_for_capability`: every config entry matching ANY
requested capability, stably sorted by priority desc then load asc. -/
def Router.choose_agents_for_capability (r : Router) (s : CapStore)
    (capabilities : List String) : List (String × AgentCfg) :=
  pySort (fun a b => keyLE (r.sortKey s a) (r.sortKey s b))
    (r.config.filter (fun x => matchesAny x.2.capabilities capabilities))

/-- The candidate loop of `Router.pick_agent`: first candidate passing the
advisory capacity check whose reservation then succeeds. -/
def Router.pickLoop (r : Router) :
    List (String × AgentCfg) → CapStore → Option (String × String) × CapStore
  | [], s => (Option.none, s)
  | (name, cfg) :: rest, s =>
    if r.capacity_ok s name then
      match r.reserve_slot s name with
      | (true, s1) => (some (name, cfg.queue.getD "general"), s1)
      | (false, s1) => r.pickLoop rest s1
    else
      r.pickLoop rest s

/-- `Router.pick_agent`: loop over ordered candidates reserving a slot; on
exhaustion fall back to the best candidate with no slot reserved; None when
no candidate matches at all. -/
def Router.pick_agent (r : Router) (s : CapStore) (capabilities : List String) :
    Option (String × String) × CapStore :=
  let candidates := r.choose_agents_for_capability s capabilities
  match r.pickLoop candidates s with
  | (some picked, s1) => (some picked, s1)
  | (Option.none, s1) =>
    match candidates with
    | best :: _ => (some (best.1, best.2.queue.getD "general"), s1)
    | [] => (Option.none, s1)

/-! ## Abstract call sequences against the ledger -/

/-- One call against the capacity ledger of a router. -/
inductive CapOp where
  | reserve (name : String)
  | release (name : String)
deriving Repr, DecidableEq

/-- Run a sequence of reserve/release calls, threading the counter store. -/
def runOps (r : Router) : List CapOp → CapStore → CapStore
  | [], s => s
  | CapOp.reserve n :: ops, s => runOps r ops (r.reserve_slot s n).2
  | CapOp.release n :: ops, s => runOps r ops (r.release_slot s n).2

/-- Every release in the sequence happens while its counter is positive,
i.e. is justified by an outstanding reservation. -/
def justifiedRun (r : Router) : List CapOp → CapStore → Bool
  | [], _ => true
  | CapOp.reserve n :: ops, s => justifiedRun r ops (r.reserve_slot s n).2
  | CapOp.release n :: ops, s =>
      decide (0 < s (r.key n)) && justifiedRun r ops (r.release_slot s n).2

/-! ## Agents (agents/base.py, agents/registry.py) -/

/-- The behavior of every registered agent class: its run method maps a
payload to a returned value or a raised domain error (a timeout raised
inside the invocation behaves as a raise as well).  The per-agent config
passed to the constructor only parameterizes this behavior. -/
def AgentRun := String → Value → Except String Value

/-- `AgentBase.execute`: time the run and wrap its output as a dict with
agent, elapsed_s and result fields (wall-clock elapsed abstracted to 0);
a raise from run propagates. -/
def AgentBase.execute (run : AgentRun) (name : String) (payload : Value) :
    Except String Value :=
  match run name payload with
  | .ok result =>
      .ok (.dict [("agent", .str name), ("elapsed_s", .num 0), ("result", result)])
  | .error e => .error e

/-- A progress event as published on the message bus; the correlation id and
the stage label are modelled (stage-specific metadata is carried by no
control flow in the source). -/
structure Event where
  task_id : String
  stage : String
deriving Repr, DecidableEq

/-! ## Thread-based orchestrator (orchestrator.py) -/

/-- State threaded through the in-process orchestrator: the capacity ledger
and the trace of published events. -/
structure SyncState where
  caps : CapStore
  events : List Event

/-- Publish one progress event. -/
def SyncState.pub (st : SyncState) (task_id stage : String) : SyncState :=
  { st with events := st.events ++ [⟨task_id, stage⟩] }

/-- `res.get("result") if isinstance(res, dict) else res`. -/
def resultOf : Value → Value
  | .dict fs => dGet fs "result"
  | v => v

/-- `Orchestrator._run_agent_sync`: look up the agent class (get_agent raises
KeyError before the try block, so that path performs no publish and no
release), publish start, execute, publish done on success, and in the finally
block unconditionally release the router slot for the agent. -/
def _run_agent_sync (r : Router) (registry : List String) (run : AgentRun)
    (agent_name : String) (payload : Value) (task_id : String)
    (st : SyncState) : Except String Value × SyncState :=
  if registry.contains agent_name then
    let st := st.pub task_id (agent_name ++ ":start")
    match AgentBase.execute run agent_name payload with
    | .ok res =>
      let st := st.pub task_id (agent_name ++ ":done")
      (.ok res, { st with caps := (r.release_slot st.caps agent_name).2 })
    | .error e =>
      (.error e, { st with caps := (r.release_slot st.caps agent_name).2 })
  else
    (.error ("Unknown agent: " ++ agent_name), st)

/-- One step of Orchestrator.pipeline: an explicit agent name or a capability
list resolved through pick_agent. -/
inductive Step where
  | agent (name : String)
  | capability (cs : List String)
deriving Repr

/-- `Orchestrator.pipeline`: resolve each step (explicit name, or pick_agent
with a RuntimeError when nothing is found), run it synchronously (publishing
an error event and re-raising on failure), then double-star-merge the result
field of its output into the accumulated payload.  The merge sits outside
the try/except, so a TypeError it raises propagates with no error event. -/
def Orchestrator.pipeline (r : Router) (registry : List String) (run : AgentRun)
    (task_id : String) :
    List Step → List (String × Value) → SyncState →
    Except String (List (String × Value)) × SyncState
  | [], data, st => (.ok data, st)
  | step :: rest, data, st =>
    let resolved : Option String × SyncState :=
      match step with
      | .agent nm => (some nm, st)
      | .capability cs =>
        match r.pick_agent st.caps cs with
        | (some (nm, _q), caps1) => (some nm, { st with caps := caps1 })
        | (Option.none, caps1) => (Option.none, { st with caps := caps1 })
    match resolved with
    | (Option.none, st1) => (.error "No agent found for step", st1)
    | (some agent_name, st1) =>
      match _run_agent_sync r registry run agent_name (Value.dict data) task_id st1 with
      | (.error e, st2) => (.error e, st2.pub task_id "error")
      | (.ok res, st2) =>
        match starMerge data (resultOf res) with
        | .ok data2 => Orchestrator.pipeline r registry run task_id rest data2 st2
        | .error e => (.error e, st2)

/-- What one fan-out worker thread has done when the bounded collection
window closes: it finished (appending its entry to the shared results list
under the lock -- the entry being its normal result, or the captured-error
dict, or the no_agent marker), or it is still running. -/
inductive FanOutcome where
  | finished (entry : Value)
  | running
deriving Repr, BEq

/-- Whether a thread outcome is the still-running one. -/
def FanOutcome.isRunning : FanOutcome → Bool
  | FanOutcome.running => true
  | FanOutcome.finished _ => false

/-- `Orchestrator.fan_out_fan_in`, keyed by the per-thread outcomes at the
close of the collection window (completion order abstracted to dispatch
order): a thread that finished within the window appended its entry to the
shared results list; then the is_alive pass publishes one timeout event per
thread still running, which contributes no entry to the results.  The
function returns the results list and the published timeout events. -/
def fan_out_fan_in (task_id : String) : List FanOutcome → List Value × List Event
  | [] => ([], [])
  | o :: rest =>
    let re := fan_out_fan_in task_id rest
    match o with
    | FanOutcome.finished e => (e :: re.1, re.2)
    | FanOutcome.running => (re.1, Event.mk task_id "timeout" :: re.2)

/-! ## Celery task runner (celery_tasks_agents.py) -/

/-- A message published on a speculative race channel by a candidate that
succeeded: the JSON dict with agent, result and task_id fields (a parsed
message lacking a task_id field reads it as None). -/
structure RaceMsg where
  agent : String
  result : Value
  task_id : Option String
deriving Repr, BEq

/-- State touched by the Celery task runner: the capacity ledger (observably
never written by it), the event trace, and the per-channel speculative
publishes. -/
structure CeleryState where
  caps : CapStore
  events : List Event
  racePub : List (String × RaceMsg)

/-- `run_agent_task`: publish start; look up the agent (inside the try, so an
unknown agent publishes the error event and re-raises); execute; normalize
the output; publish done; if the payload carries a truthy _spec_id, publish
the normalized output on that speculative channel.  The HITL review side
policy (needs_human_review / create_review) writes only review records plus
one optional notification event and is swallowed on failure, touching none of
the state modelled here, so it is not carried.  No path of this task touches
the capacity store: the Celery runner contains no release_slot call. -/
def run_agent_task (registry : List String) (run : AgentRun)
    (agent_name : String) (payload : Value) (task_id : String)
    (st : CeleryState) : Except String Value × CeleryState :=
  let st := { st with events := st.events ++ [Event.mk task_id (agent_name ++ ":start")] }
  if registry.contains agent_name then
    match AgentBase.execute run agent_name payload with
    | .ok raw =>
      let out : Value := .dict [("agent", .str agent_name),
        ("result", resultOf raw), ("elapsed_s", .num 0)]
      let st := { st with events := st.events ++ [Event.mk task_id (agent_name ++ ":done")] }
      let st :=
        match payload with
        | .dict fs =>
          match fs.lookup "_spec_id" with
          | some (.str sid) =>
            if sid.isEmpty then st
            else { st with racePub := st.racePub ++
                    [("speculative:" ++ sid, ⟨agent_name, out, some task_id⟩)] }
          | _ => st
        | _ => st
      (.ok out, st)
    | .error e =>
      (.error e, { st with events := st.events ++ [Event.mk task_id (agent_name ++ ":error")] })
  else
    (.error ("Unknown agent: " ++ agent_name),
     { st with events := st.events ++ [Event.mk task_id (agent_name ++ ":error")] })

/-! ## Speculative race coordinator (celery_orchestrator.py) -/

/-- A handle of one launched candidate task (a Celery AsyncResult). -/
structure Handle where
  id : String
deriving Repr, DecidableEq

/-- One poll of the race channel, i.e. one get_message(timeout=1) call of the
wait loop: Option.none when no message (or one with falsy data) arrived
within that second; some raw when a message arrived, raw being the JSON parse
of its data (Option.none for data that fails to parse). -/
abbrev RacePoll := Option (Option RaceMsg)

/-- The wait loop of speculative_race_on_redis: the while loop performs one
poll per second of budget, so the poll list supplied has length timeout_s.
The first successfully parsed message wins and breaks the loop; empty polls
and malformed messages are skipped.  Returns the winner (Option.none when the
deadline elapses with no parseable message) and the number of polls actually
performed before returning. -/
def raceWait : List RacePoll → Option RaceMsg × Nat
  | [] => (Option.none, 0)
  | poll :: rest =>
    match poll with
    | some (some m) => (some m, 1)
    | _ =>
      let wn := raceWait rest
      (wn.1, wn.2 + 1)

/-- The full outcome of one speculative race: the winner, how many polls the
coordinator performed while waiting, which handles it issued revoke against,
and which of those revoke calls raised (each is swallowed by its own
try/except). -/
structure RaceOutcome where
  winner : Option RaceMsg
  pollsUsed : Nat
  revoked : List Handle
  revokeFailures : List Handle
deriving Repr

/-- `speculative_race_on_redis`: launching the candidates yields the handles
list (one AsyncResult per entry of agent_specs, in order); the channel
traffic observed within the budget is the poll list -- with zero candidates
nothing was launched, so every poll of the freshly generated channel is
necessarily empty.  After a winner, revoke is issued against every handle
whose id differs from the winner's task_id; revokeOk models whether each
revoke call succeeds, and its failures are swallowed. -/
def speculative_race_on_redis (handles : List Handle) (polls : List RacePoll)
    (revokeOk : Handle → Bool) : RaceOutcome :=
  let wn := raceWait polls
  match wn.1 with
  | some winner =>
    let targets := handles.filter (fun ar => decide (some ar.id ≠ winner.task_id))
    ⟨some winner, wn.2, targets, targets.filter (fun ar => !revokeOk ar)⟩
  | Option.none => ⟨Option.none, wn.2, [], []⟩

/-! ## Celery orchestration (celery_orchestrator.run_orchestration) -/

/-- Python str() of a value as interpolated into an f-string.  Container
reprs are abbreviated (no claim interpolates a container). -/
def pyStr : Value → String
  | .none => "None"
  | .bool true => "True"
  | .bool false => "False"
  | .num n => toString n
  | .str s => s
  | .list _ => "<list>"
  | .dict _ => "<dict>"

/-- Python len(): sized containers only, TypeError otherwise. -/
def pyLen : Value → Except String Nat
  | .list xs => .ok xs.length
  | .str s => .ok s.length
  | .dict fs => .ok fs.length
  | _ => .error "TypeError: object has no len"

/-- Python `v.get(k)`: dict lookup (None when absent); AttributeError when the
receiver is not a dict. -/
def Value.pyGet : Value → String → Except String Value
  | .dict fs, k => .ok (dGet fs k)
  | _, _ => .error "AttributeError: object has no attribute get"

/-- Python `x or {}`: x itself when truthy, the empty dict otherwise. -/
def orEmptyDict (v : Value) : Value :=
  if v.truthy then v else .dict []

/-- A stored idempotency record: the owning task id and the expiry passed to
SET (seconds). -/
structure IdemRecord where
  task_id : String
  ex : Nat
deriving Repr, DecidableEq

/-- State threaded through one run_orchestration call: the capacity ledger,
the idempotency keyspace, the published events, plus two observation traces
instrumenting the embedding -- the capability set of every pick_agent call
made, and the agent name of every run_agent_task dispatched. -/
structure OrchState where
  caps : CapStore
  idem : String → Option IdemRecord
  events : List Event
  picks : List (List String)
  runs : List String

/-- Publish one progress event. -/
def OrchState.pub (st : OrchState) (task_id stage : String) : OrchState :=
  { st with events := st.events ++ [Event.mk task_id stage] }

/-- One router.pick_agent call made by the orchestration, recorded in the
pick trace and threading the capacity store. -/
def OrchState.pick (st : OrchState) (r : Router) (caps : List String) :
    Option (String × String) × OrchState :=
  let res := r.pick_agent st.caps caps
  (res.1, { st with caps := res.2, picks := st.picks ++ [caps] })

/-- celery `group(...).get(timeout)`: every task result in order; a single
failing (or not-in-time) member raises out of the whole get, so no partial
list is returned. -/
def groupGet (results : List (Except String Value)) : Except String (List Value) :=
  results.foldr
    (fun r acc =>
      match r, acc with
      | .ok v, .ok vs => .ok (v :: vs)
      | .error e, _ => .error e
      | _, .error e => .error e)
    (.ok [])

/-- `len(spec_winner.get("result", \x7b\x7d).get("frames", [])) if
spec_winner.get("result") else 0`: 0 for a falsy result; otherwise the result
must be a dict (AttributeError if not) whose frames field (default the empty
list) must be sized (TypeError if not). -/
def framesCount (result : Value) : Except String Nat :=
  if result.truthy then
    match result with
    | .dict fs => pyLen (dGetD fs "frames" (.list []))
    | _ => .error "AttributeError: object has no attribute get"
  else
    .ok 0

/-- The dedup of motion candidates: include the primary when present, and the
backup only when its (agent, queue) pair differs from the primary's. -/
def motionSpecs (primary backup : Option (String × String)) :
    List (String × String) :=
  (match primary with
   | some p => [p]
   | Option.none => []) ++
  (match backup with
   | some b => if primary = some b then [] else [b]
   | Option.none => [])

/-- The finalize part of run_orchestration shared by both validator branches:
compute the frame count of the winning result, publish completed, and return
the success dict. -/
def finalizeStage (spec_winner : RaceMsg) (task_id : String) (st : OrchState) :
    Except String Value × OrchState :=
  match framesCount spec_winner.result with
  | .error e => (.error e, st)
  | .ok frames =>
    let st := st.pub task_id "completed"
    (.ok (.dict [("ok", .bool true), ("frames", .num frames)]), st)

/-- The validators fan-out stage of run_orchestration: all workers with a
validation or scoring capability are discovered (no slot reserved) and run as
one celery group against the winning motion result; an empty discovery skips
the stage with a validators:skipped event. -/
def validatorsStage (r : Router) (exec : String → Value → Except String Value)
    (spec_winner : RaceMsg) (task_id : String) (st : OrchState) :
    Except String Value × OrchState :=
  let validators :=
    (r.choose_agents_for_capability st.caps ["validation", "scoring"]).map Prod.fst
  match validators with
  | [] =>
    let st := st.pub task_id "validators:skipped"
    finalizeStage spec_winner task_id st
  | _ :: _ =>
    let st := { st with runs := st.runs ++ validators }
    match groupGet (validators.map (fun n => exec n spec_winner.result)) with
    | .error e => (.error e, st)
    | .ok _val_results =>
      let st := st.pub task_id "validators:done"
      finalizeStage spec_winner task_id st

/-- The speculative motion stage of run_orchestration and everything after
it: pick primary and backup motion candidates, dedup them, raise before any
race when no candidate exists, otherwise race the candidates (handles, polls
and revoke behavior as in speculative_race_on_redis) and continue with the
validators stage on the winner. -/
def motionStage (r : Router) (exec : String → Value → Except String Value)
    (motionHandles : List Handle) (motionPolls : List RacePoll)
    (revokeOk : Handle → Bool) (prompt_res : Value) (task_id : String)
    (st : OrchState) : Except String Value × OrchState :=
  match st.pick r ["motion_generation"] with
  | (primary, st) =>
  match st.pick r ["motion_generation"] with
  | (backup, st) =>
  let agent_specs := motionSpecs primary backup
  if agent_specs.isEmpty then
    (.error "No motion generator candidates available", st)
  else
    match prompt_res.pyGet "result" with
    | .error e => (.error e, st)
    | .ok prompt_result =>
    let prompt_text :=
      match prompt_result with
      | .dict fs => dGet fs "prompt"
      | v => v
    let _spec_payload : Value := .dict [("prompt", prompt_text)]
    let st := st.pub task_id "motion:speculative_start"
    let st := { st with runs := st.runs ++ agent_specs.map Prod.fst }
    let race := speculative_race_on_redis motionHandles motionPolls revokeOk
    match race.winner with
    | Option.none =>
      let st := st.pub task_id "motion:failed"
      (.error "Motion generation failed (no speculative winner)", st)
    | some spec_winner =>
      let st := st.pub task_id "motion:done"
      validatorsStage r exec spec_winner task_id st

/-- The body of run_orchestration after the idempotency gate, stage by stage
as in the source.  External execution is a parameter: exec gives the observed
outcome of dispatching run_agent_task for one agent and payload and getting
its result within the stage timeout (a raise covers both a domain error and
the get timing out). -/
def orchestrationStages (r : Router) (exec : String → Value → Except String Value)
    (motionHandles : List Handle) (motionPolls : List RacePoll)
    (revokeOk : Handle → Bool) (payload : List (String × Value))
    (task_id : String) (st : OrchState) : Except String Value × OrchState :=
  -- 1) perception -> prompt pipeline (sequential)
  match st.pick r ["perception"] with
  | (Option.none, st) => (.error "No perception agent available", st)
  | (some (perc_agent, _pq), st) =>
  let st := { st with runs := st.runs ++ [perc_agent] }
  match exec perc_agent (Value.dict payload) with
  | .error e => (.error e, st)
  | .ok perc_res =>
  let st := st.pub task_id "perception:done"
  match perc_res.pyGet "result" with
  | .error e => (.error e, st)
  | .ok perc_result =>
  match starMerge payload (orEmptyDict perc_result) with
  | .error e => (.error e, st)
  | .ok prompt_payload =>
  match st.pick r ["nl_generation"] with
  | (Option.none, st) => (.error "No prompt generator available", st)
  | (some (prompt_agent, _gq), st) =>
  let st := { st with runs := st.runs ++ [prompt_agent] }
  match exec prompt_agent (Value.dict prompt_payload) with
  | .error e => (.error e, st)
  | .ok prompt_res =>
  let st := st.pub task_id "prompt:done"
  -- 2) speculative motion generation and everything after it
  motionStage r exec motionHandles motionPolls revokeOk prompt_res task_id st

/-- The idempotency key f-string `idem:(match_id):(round)`. -/
def idemKeyOf (payload : List (String × Value)) : String :=
  "idem:" ++ pyStr (dGet payload "match_id") ++ ":" ++ pyStr (dGet payload "round")

/-- `run_orchestration`: publish started; compute the idempotency key from
match_id and round; when a truthy record is stored, publish skipped and
return the skipped dict immediately; otherwise write the record with a 300s
expiry and run the stages, the surrounding except publishing an error event
and re-raising on any stage failure. -/
def run_orchestration (r : Router) (exec : String → Value → Except String Value)
    (motionHandles : List Handle) (motionPolls : List RacePoll)
    (revokeOk : Handle → Bool) (payload : List (String × Value))
    (task_id : String) (st : OrchState) : Except String Value × OrchState :=
  let st := st.pub task_id "orchestration:started"
  let idem_key := idemKeyOf payload
  let recorded :=
    match st.idem idem_key with
    | some rec1 => !rec1.task_id.isEmpty
    | Option.none => false
  if recorded then
    (.ok (.dict [("skipped", .bool true)]), st.pub task_id "skipped")
  else
    let st := { st with
      idem := fun k => if k = idem_key then some ⟨task_id, 300⟩ else st.idem k }
    match orchestrationStages r exec motionHandles motionPolls revokeOk payload task_id st with
    | (.ok v, st1) => (.ok v, st1)
    | (.error e, st1) => (.error e, st1.pub task_id "error")

/-! ## Concrete fixtures used by witnesses and counterexamples -/

/-- The all-zero counter store (a fresh Redis keyspace). -/
def zeroStore : CapStore := fun _ => 0

/-- A perception worker with max_concurrency 1. -/
def wCfg : AgentCfg := ⟨["perception"], some 10, some 1, some "q1"⟩

/-- A one-worker router with the source's default key prefix. -/
def demoRouter : Router := ⟨[("w", wCfg)], "agents:runcount:"⟩

/-- A low-priority validator with capacity 2. -/
def aCfg : AgentCfg := ⟨["validation"], some 5, some 2, some "qa"⟩

/-- A high-priority validator with capacity 1. -/
def bCfg : AgentCfg := ⟨["validation", "scoring"], some 9, some 1, some "qb"⟩

/-- A two-worker router exercising candidate ordering. -/
def demoRouter2 : Router := ⟨[("a", aCfg), ("b", bCfg)], "agents:runcount:"⟩

/-- An agent behavior whose run always returns an empty dict. -/
def okRun : AgentRun := fun _ _ => .ok (.dict [])

/-- An agent behavior whose run always returns None. -/
def noneRun : AgentRun := fun _ _ => .ok Value.none

/-- An exec collaborator whose every dispatch returns a result-less dict. -/
def execOk : String → Value → Except String Value :=
  fun _ _ => .ok (.dict [("result", Value.none)])

/-- An orchestration state over a fresh keyspace with empty traces. -/
def orchSt0 : OrchState :=
  ⟨zeroStore, fun _ => Option.none, [], [], []⟩

/-- A canonical event-source payload. -/
def demoPayload : List (String × Value) :=
  [("match_id", Value.str "m1"), ("round", Value.num 4)]

/-- An orchestration state already holding the idempotency record of a
previous run for demoPayload. -/
def stWithRecord : OrchState :=
  ⟨zeroStore,
   fun k => if k = "idem:m1:4" then some ⟨"tprev", 300⟩ else Option.none,
   [], [], []⟩

/-- A parsed race message naming handle h1 as its publisher. -/
def demoMsg : RaceMsg := ⟨"w", Value.dict [], some "h1"⟩

/-- Two candidate handles. -/
def demoHandles : List Handle := [⟨"h1"⟩, ⟨"h2"⟩]

/-- A poll trace: one empty second, one malformed message, then a message
that parses as demoMsg. -/
def demoPolls : List RacePoll :=
  [Option.none, some Option.none, some (some demoMsg)]

/-! ## Helper lemmas -/

theorem set_self (s : CapStore) (k : String) (v : Int) : s.set k v k = v := by
  simp [CapStore.set]

theorem set_other (s : CapStore) (k q : String) (v : Int) (h : q ≠ k) :
    s.set k v q = s q := by
  simp [CapStore.set, h]

/-- On a reservation failure the incr-then-decr pair nets to the original
store at every key. -/
theorem reserve_slot_failed_store (r : Router) (s : CapStore) (name : String)
    (h : (r.reserve_slot s name).1 = false) :
    ∀ k, (r.reserve_slot s name).2 k = s k := by
  intro k
  unfold Router.reserve_slot incr_capacity decr_capacity at *
  by_cases hc : s (r.key name) + 1 > (r.cfg name).max_concurrency.getD 1
  · simp only [hc, if_pos] at *
    by_cases hk : k = r.key name
    · subst hk; simp [CapStore.set]
    · simp [CapStore.set, hk]
  · simp [hc] at h

/-- On a successful reservation the counter of the reserved worker rises by
one and every other key is untouched. -/
theorem reserve_slot_ok_store (r : Router) (s : CapStore) (name : String)
    (h : (r.reserve_slot s name).1 = true) :
    (r.reserve_slot s name).2 (r.key name) = s (r.key name) + 1 ∧
    ∀ k, k ≠ r.key name → (r.reserve_slot s name).2 k = s k := by
  unfold Router.reserve_slot incr_capacity at *
  by_cases hc : s (r.key name) + 1 > (r.cfg name).max_concurrency.getD 1
  · simp [hc] at h
  · simp only [hc, if_neg, if_false]
    exact ⟨set_self .., fun k hk => set_other s (r.key name) k _ hk⟩

/-- reserve_slot reports true exactly when the incremented counter value is
within the worker's max_concurrency. -/
theorem reserve_slot_ok_iff (r : Router) (s : CapStore) (name : String) :
    (r.reserve_slot s name).1 = true ↔
      s (r.key name) + 1 ≤ (r.cfg name).max_concurrency.getD 1 := by
  unfold Router.reserve_slot incr_capacity
  by_cases hc : s (r.key name) + 1 > (r.cfg name).max_concurrency.getD 1
  · simp only [hc, if_pos]
    constructor
    · intro h; exact absurd h (by simp)
    · intro h; omega
  · simp only [hc, if_neg, if_false]
    constructor
    · intro _; omega
    · intro _; trivial

/-- release_slot decrements exactly the released worker's counter by one,
with no floor. -/
theorem release_slot_store (r : Router) (s : CapStore) (name k : String) :
    (r.release_slot s name).2 k =
      (if k = r.key name then s k - 1 else s k) := by
  unfold Router.release_slot decr_capacity
  by_cases hk : k = r.key name
  · subst hk; simp [CapStore.set]
  · simp [CapStore.set, hk]

/-! ## C4: the reserve contract -/

/-- C4: for every worker name and counter state, reserve_slot increments the
counter and returns true exactly when the incremented value is within that
worker's max_concurrency; when it exceeds it, the counter is immediately
decremented back (net no-op at every key) and false is returned. -/
theorem reserve_slot_contract (r : Router) (s : CapStore) (name : String) :
    ((r.reserve_slot s name).1 = true ↔
      s (r.key name) + 1 ≤ (r.cfg name).max_concurrency.getD 1) ∧
    ((r.reserve_slot s name).1 = true →
      (r.reserve_slot s name).2 (r.key name) = s (r.key name) + 1 ∧
      ∀ k, k ≠ r.key name → (r.reserve_slot s name).2 k = s k) ∧
    ((r.reserve_slot s name).1 = false →
      ∀ k, (r.reserve_slot s name).2 k = s k) :=
  ⟨reserve_slot_ok_iff r s name,
   fun h => reserve_slot_ok_store r s name h,
   fun h => reserve_slot_failed_store r s name h⟩

/-- C4 witness: on the fresh store the demo worker (max_concurrency 1) is
granted the slot and its counter becomes 1. -/
theorem reserve_slot_contract_witness :
    (demoRouter.reserve_slot zeroStore "w").1 = true ∧
    (demoRouter.reserve_slot zeroStore "w").2 (demoRouter.key "w") = 1 := by
  have h := reserve_slot_contract demoRouter zeroStore "w"
  have ht : (demoRouter.reserve_slot zeroStore "w").1 = true :=
    h.1.mpr (by decide)
  refine ⟨ht, ?_⟩
  have h2 := (h.2.1 ht).1
  rw [h2]
  decide

/-! ## C3: no floor on release -/

/-- C3 counterexample: a single release call issued against the fresh store
drives the worker's counter to -1.  decr_capacity is a raw DECRBY with no
floor at 0, so the claimed invariant 0 <= count fails for a sequence
consisting of one unmatched release. -/
theorem release_floor_counterexample :
    runOps demoRouter [CapOp.release "w"] zeroStore (demoRouter.key "w") = -1 ∧
    ¬ (0 ≤ runOps demoRouter [CapOp.release "w"] zeroStore (demoRouter.key "w")) := by
  decide

/-- C3 amended: release applies no floor at 0; however, for every sequence of
reserve and release calls in which each release is issued while its worker's
counter is positive (i.e. is justified by an outstanding reservation), every
counter stays non-negative throughout, starting from a non-negative store. -/
theorem justified_runOps_nonneg (r : Router) (ops : List CapOp) (s : CapStore)
    (h0 : ∀ k, 0 ≤ s k) (hj : justifiedRun r ops s = true) :
    ∀ k, 0 ≤ runOps r ops s k := by
  induction ops generalizing s with
  | nil => intro k; exact h0 k
  | cons op rest ih =>
    cases op with
    | reserve n =>
      simp only [runOps, justifiedRun] at hj ⊢
      apply ih
      · intro k
        by_cases hres : (r.reserve_slot s n).1 = true
        · rcases reserve_slot_ok_store r s n hres with ⟨hk, ho⟩
          by_cases he : k = r.key n
          · subst he; rw [hk]; have := h0 (r.key n); omega
          · rw [ho k he]; exact h0 k
        · have hf : (r.reserve_slot s n).1 = false := by
            cases h : (r.reserve_slot s n).1 <;> simp_all
          rw [reserve_slot_failed_store r s n hf k]; exact h0 k
      · exact hj
    | release n =>
      simp only [runOps, justifiedRun, Bool.and_eq_true, decide_eq_true_eq] at hj ⊢
      obtain ⟨hpos, hj⟩ := hj
      apply ih
      · intro k
        rw [release_slot_store r s n k]
        by_cases he : k = r.key n
        · rw [if_pos he, he]; omega
        · rw [if_neg he]; exact h0 k
      · exact hj

/-- C3 witness: one justified reserve/release pair on the demo router leaves
the counter non-negative. -/
theorem justified_runOps_nonneg_witness :
    0 ≤ runOps demoRouter [CapOp.reserve "w", CapOp.release "w"] zeroStore
        (demoRouter.key "w") :=
  justified_runOps_nonneg demoRouter [CapOp.reserve "w", CapOp.release "w"]
    zeroStore (fun _ => le_refl 0) (by decide) (demoRouter.key "w")

/-! ## C2: the fan-out collection window -/

/-- C2 counterexample: two validators dispatched, one finished and one still
running at the close of the collection window.  The returned result set holds
exactly the one finished entry and no timeout marker entry (its length is 1,
not N = 2); the straggler is reported only through a published timeout
event. -/
theorem fan_out_counterexample :
    (fan_out_fan_in "t" [FanOutcome.finished (Value.num 7), FanOutcome.running]).1
      = [Value.num 7] ∧
    ((fan_out_fan_in "t"
        [FanOutcome.finished (Value.num 7), FanOutcome.running]).1).length ≠ 2 ∧
    (fan_out_fan_in "t" [FanOutcome.finished (Value.num 7), FanOutcome.running]).2
      = [Event.mk "t" "timeout"] :=
  ⟨rfl, by decide, rfl⟩

/-- C2 amended: the result list contains exactly the finished validators'
entries, in order, none dropped; each still-running validator contributes one
published timeout event (a marker on the event bus, not an entry of the
result set), finished entries and timeout events always totalling the number
dispatched -- slow validators neither block nor drop finished results. -/
theorem fan_out_window (task_id : String) (outcomes : List FanOutcome) :
    (fan_out_fan_in task_id outcomes).1 =
      outcomes.filterMap (fun o =>
        match o with
        | FanOutcome.finished e => some e
        | FanOutcome.running => Option.none) ∧
    (fan_out_fan_in task_id outcomes).2 =
      List.replicate (outcomes.countP FanOutcome.isRunning)
        (Event.mk task_id "timeout") ∧
    ((fan_out_fan_in task_id outcomes).1).length +
      ((fan_out_fan_in task_id outcomes).2).length = outcomes.length := by
  induction outcomes with
  | nil => exact ⟨rfl, rfl, rfl⟩
  | cons o rest ih =>
    obtain ⟨ih1, ih2, ih3⟩ := ih
    cases o with
    | finished e =>
      refine ⟨?_, ?_, ?_⟩
      · simp [fan_out_fan_in, ih1]
      · simpa [fan_out_fan_in, List.countP_cons, FanOutcome.isRunning] using ih2
      · simp only [fan_out_fan_in, List.length_cons]
        omega
    | running =>
      refine ⟨?_, ?_, ?_⟩
      · simpa [fan_out_fan_in] using ih1
      · simp [fan_out_fan_in, List.countP_cons, FanOutcome.isRunning, ih2,
          List.replicate_succ]
      · simp only [fan_out_fan_in, List.length_cons]
        omega

/-! ## C5: first parsed message wins; losers get best-effort revoke -/

/-- The winner of the wait loop is the first successfully parsed message
among the messages that arrived, in arrival order. -/
theorem raceWait_winner (polls : List RacePoll) :
    (raceWait polls).1 = ((polls.filterMap id).filterMap id).head? := by
  induction polls with
  | nil => rfl
  | cons p rest ih =>
    cases p with
    | none => simpa [raceWait] using ih
    | some raw =>
      cases raw with
      | none => simpa [raceWait] using ih
      | some m => simp [raceWait]

/-- The race returns exactly the wait loop's winner. -/
theorem race_winner_eq (handles : List Handle) (polls : List RacePoll)
    (rk : Handle → Bool) :
    (speculative_race_on_redis handles polls rk).winner = (raceWait polls).1 := by
  unfold speculative_race_on_redis
  cases h1 : (raceWait polls).1 <;> simp [h1]

/-- On a winner, the revoke targets are the handles filtered on id mismatch. -/
theorem race_revoked_eq (handles : List Handle) (polls : List RacePoll)
    (rk : Handle → Bool) (w : RaceMsg)
    (hw : (raceWait polls).1 = some w) :
    (speculative_race_on_redis handles polls rk).revoked
      = handles.filter (fun ar => decide (some ar.id ≠ w.task_id)) := by
  unfold speculative_race_on_redis
  simp [hw]

/-- C5: the race winner is the first channel message that parses
successfully; arrivals that fail to parse are skipped without aborting the
race; upon a winner, revoke is issued against exactly the launched handles
whose task id differs from the winner's; and revoke failures change neither
the winner nor the set of revoked handles (they are swallowed). -/
theorem race_first_parse_and_revoke (handles : List Handle) (polls : List RacePoll)
    (rk rk' : Handle → Bool) :
    (speculative_race_on_redis handles polls rk).winner
        = ((polls.filterMap id).filterMap id).head? ∧
    (speculative_race_on_redis handles (some Option.none :: polls) rk).winner
        = (speculative_race_on_redis handles polls rk).winner ∧
    (∀ w, (speculative_race_on_redis handles polls rk).winner = some w →
      ∀ ar ∈ handles,
        (ar ∈ (speculative_race_on_redis handles polls rk).revoked ↔
          some ar.id ≠ w.task_id)) ∧
    (speculative_race_on_redis handles polls rk).winner
        = (speculative_race_on_redis handles polls rk').winner ∧
    (speculative_race_on_redis handles polls rk).revoked
        = (speculative_race_on_redis handles polls rk').revoked := by
  refine ⟨?_, ?_, ?_, ?_, ?_⟩
  · rw [race_winner_eq, raceWait_winner]
  · rw [race_winner_eq, race_winner_eq, raceWait_winner, raceWait_winner]
    simp
  · intro w hw ar har
    rw [race_winner_eq] at hw
    rw [race_revoked_eq handles polls rk w hw]
    simp [List.mem_filter, har]
  · rw [race_winner_eq, race_winner_eq]
  · cases hw : (raceWait polls).1 with
    | some w => rw [race_revoked_eq handles polls rk w hw,
        race_revoked_eq handles polls rk' w hw]
    | none =>
      unfold speculative_race_on_redis
      simp [hw]

/-- C5 witness: on the demo poll trace (an empty second, a malformed message,
then a parsing one naming handle h1), the race revokes handle h2. -/
theorem race_revoke_witness :
    Handle.mk "h2" ∈
      (speculative_race_on_redis demoHandles demoPolls (fun _ => true)).revoked := by
  have h := race_first_parse_and_revoke demoHandles demoPolls
    (fun _ => true) (fun _ => true)
  have hw : (speculative_race_on_redis demoHandles demoPolls
      (fun _ => true)).winner = some demoMsg := by rfl
  exact (h.2.2.1 demoMsg hw (Handle.mk "h2") (by decide)).mpr (by decide)

/-! ## C6: zero race candidates -/

/-- C6 counterexample: the race coordinator invoked with zero candidates does
not fail immediately: on the fresh channel (to which nothing can ever be
published, since nothing was launched) it performs all 3 polls of a 3-second
deadline before returning no winner -- waiting does occur. -/
theorem race_zero_candidates_counterexample :
    (speculative_race_on_redis [] (List.replicate 3 Option.none)
        (fun _ => true)).winner = Option.none ∧
    (speculative_race_on_redis [] (List.replicate 3 Option.none)
        (fun _ => true)).pollsUsed = 3 ∧
    (speculative_race_on_redis [] (List.replicate 3 Option.none)
        (fun _ => true)).pollsUsed ≠ 0 :=
  ⟨rfl, rfl, by decide⟩

/-- An always-empty channel is polled for the whole budget with no winner. -/
theorem raceWait_empty_channel (t : Nat) :
    raceWait (List.replicate t Option.none) = (Option.none, t) := by
  induction t with
  | zero => rfl
  | succ n ih => simp [List.replicate_succ, raceWait, ih]

/-- When no config entry matches the requested capabilities, pick_agent finds
no candidate and leaves the counter store untouched. -/
theorem pick_agent_no_match (r : Router) (s : CapStore) (caps : List String)
    (h : ∀ x ∈ r.config, matchesAny x.2.capabilities caps = false) :
    r.pick_agent s caps = (Option.none, s) := by
  have hf : r.config.filter (fun x => matchesAny x.2.capabilities caps) = [] := by
    rw [List.filter_eq_nil_iff]
    intro a ha
    simp [h a ha]
  unfold Router.pick_agent Router.choose_agents_for_capability
  rw [hf]
  rfl

/-- C6 amended: the orchestration, not the coordinator, fails immediately on
zero candidates: when no configured worker has the motion_generation
capability, the motion stage raises its dedicated error before any race, its
outcome mentioning none of the race inputs (handles, polls, revoke) and its
state change being the two recorded pick attempts only.  The coordinator
itself, invoked with zero candidates, launches and revokes nothing but still
waits out its full deadline (one poll per budgeted second) before returning
no winner instead of failing immediately. -/
theorem zero_candidates_behavior (r : Router)
    (exec : String → Value → Except String Value) (hs : List Handle)
    (polls : List RacePoll) (rk : Handle → Bool) (prompt_res : Value)
    (tid : String) (st : OrchState)
    (hmot : ∀ x ∈ r.config, matchesAny x.2.capabilities ["motion_generation"] = false) :
    (∀ (t : Nat) (rk0 : Handle → Bool),
      speculative_race_on_redis [] (List.replicate t Option.none) rk0
        = ⟨Option.none, t, [], []⟩) ∧
    motionStage r exec hs polls rk prompt_res tid st
      = (.error "No motion generator candidates available",
         { st with picks := st.picks ++ [["motion_generation"], ["motion_generation"]] }) := by
  constructor
  · intro t rk0
    unfold speculative_race_on_redis
    rw [raceWait_empty_channel]
  · have hp1 : r.pick_agent st.caps ["motion_generation"] = (Option.none, st.caps) :=
      pick_agent_no_match r st.caps _ hmot
    simp [motionStage, OrchState.pick, hp1, motionSpecs]

/-- C6 amended witness: on the demo router (whose only worker is a perception
agent) the motion stage fails at once, recording only its two pick
attempts. -/
theorem zero_candidates_behavior_witness :
    motionStage demoRouter execOk [] [] (fun _ => true) Value.none "t" orchSt0
      = (.error "No motion generator candidates available",
         { orchSt0 with picks := [["motion_generation"], ["motion_generation"]] }) := by
  have h := zero_candidates_behavior demoRouter execOk [] [] (fun _ => true)
    Value.none "t" orchSt0 (by decide)
  simpa [orchSt0] using h.2

/-! ## C7: the idempotency gate -/

/-- C7: when a (truthy) idempotency record exists for the request's
(match_id, round) key, run_orchestration publishes skipped right after
started and returns the skipped dict as an ok result, changing nothing
else -- no worker is picked or run, no further stage event is published, and
neither the capacity ledger nor the idempotency store moves.  When no record
exists, the record (owning task id, 300s expiry) is written before any stage
runs: the stages observe the post-write idempotency store. -/
theorem idempotency_gate (r : Router) (exec : String → Value → Except String Value)
    (hs : List Handle) (polls : List RacePoll) (rk : Handle → Bool)
    (payload : List (String × Value)) (tid : String) (st : OrchState) :
    (∀ rec, st.idem (idemKeyOf payload) = some rec → rec.task_id ≠ "" →
      run_orchestration r exec hs polls rk payload tid st
        = (.ok (.dict [("skipped", .bool true)]),
           { st with events := st.events
               ++ [Event.mk tid "orchestration:started", Event.mk tid "skipped"] })) ∧
    (st.idem (idemKeyOf payload) = Option.none →
      run_orchestration r exec hs polls rk payload tid st
        = (let st1 : OrchState := { st with
             events := st.events ++ [Event.mk tid "orchestration:started"],
             idem := fun k => if k = idemKeyOf payload then some ⟨tid, 300⟩
                      else st.idem k }
           match orchestrationStages r exec hs polls rk payload tid st1 with
           | (.ok v, st2) => (.ok v, st2)
           | (.error e, st2) => (.error e, st2.pub tid "error"))) := by
  constructor
  · intro rec hrec hne
    have hb : rec.task_id.isEmpty = false := by
      cases hx : rec.task_id.isEmpty
      · rfl
      · exact absurd ((String.isEmpty_iff rec.task_id).mp hx) hne
    unfold run_orchestration
    simp only [OrchState.pub, hrec, hb]
    simp [List.append_assoc]
  · intro hnone
    unfold run_orchestration
    simp only [OrchState.pub, hnone]
    rfl

/-- C7 witness: a second request for (m1, 4) within the record's expiry
returns the skipped dict immediately, its only trace being the started and
skipped events. -/
theorem idempotency_gate_witness :
    run_orchestration demoRouter execOk [] [] (fun _ => true) demoPayload "t2"
        stWithRecord
      = (.ok (.dict [("skipped", .bool true)]),
         { stWithRecord with events :=
             [Event.mk "t2" "orchestration:started", Event.mk "t2" "skipped"] }) := by
  have h := (idempotency_gate demoRouter execOk [] [] (fun _ => true) demoPayload
    "t2" stWithRecord).1 ⟨"tprev", 300⟩ (by decide) (by decide)
  simpa [stWithRecord] using h

/-! ## C1: slot release on exit paths -/

/-- C1 counterexample: an invocation of the Celery task runner that was given
a reserved slot leaves the slot held.  With the demo worker's counter at 0, a
successful reservation takes it to 1; run_agent_task then returns normally,
yet the counter still reads 1 -- not its pre-invocation value 0: the Celery
runner contains no release on any path. -/
theorem run_agent_task_no_release_counterexample :
    (demoRouter.reserve_slot zeroStore "w").1 = true ∧
    zeroStore (demoRouter.key "w") = 0 ∧
    ((run_agent_task ["w"] okRun "w" (Value.dict []) "t1"
        ⟨(demoRouter.reserve_slot zeroStore "w").2, [], []⟩).2).caps
      (demoRouter.key "w") = 1 :=
  ⟨by decide, by decide, by decide⟩

/-- C1 amended: the slot-release guarantee holds for the thread-based runner
only: _run_agent_sync releases the reserved slot on every exit path (normal
return and raised error alike, via its finally block), returning the worker's
counter to its value from before the reservation; run_agent_task contains no
release, so a slot reserved for a Celery invocation stays held (until its 60s
TTL expires, outside this model). -/
theorem sync_runner_net_zero (r : Router) (registry : List String)
    (run : AgentRun) (name : String) (payload : Value) (tid : String)
    (caps0 : CapStore) (events0 : List Event)
    (hreg : registry.contains name = true)
    (hres : (r.reserve_slot caps0 name).1 = true) :
    ((_run_agent_sync r registry run name payload tid
        ⟨(r.reserve_slot caps0 name).2, events0⟩).2).caps (r.key name)
      = caps0 (r.key name) := by
  have hstore := (reserve_slot_ok_store r caps0 name hres).1
  have hrel : ∀ s : CapStore,
      (r.release_slot s name).2 (r.key name) = s (r.key name) - 1 := by
    intro s
    rw [release_slot_store]
    simp
  unfold _run_agent_sync
  simp only [hreg, if_true]
  cases hex : AgentBase.execute run name payload with
  | ok v =>
    simp only [SyncState.pub]
    rw [hrel, hstore]
    omega
  | error e =>
    simp only [SyncState.pub]
    rw [hrel, hstore]
    omega

/-- C1 amended witness: a reserved invocation of the sync runner on the demo
worker ends with the counter back at its pre-reservation value. -/
theorem sync_runner_net_zero_witness :
    ((_run_agent_sync demoRouter ["w"] okRun "w" (Value.dict []) "t"
        ⟨(demoRouter.reserve_slot zeroStore "w").2, []⟩).2).caps
      (demoRouter.key "w") = zeroStore (demoRouter.key "w") :=
  sync_runner_net_zero demoRouter ["w"] okRun "w" (Value.dict []) "t" zeroStore []
    (by decide) (by decide)

/-! ## C9: release without reservation underflows the counter -/

/-- The sync runner always ends with the worker's counter one below what it
was at entry: the finally-block release runs on every exit path. -/
theorem run_agent_sync_caps (r : Router) (registry : List String) (run : AgentRun)
    (name : String) (payload : Value) (tid : String) (st : SyncState)
    (hreg : registry.contains name = true) :
    ((_run_agent_sync r registry run name payload tid st).2).caps (r.key name)
      = st.caps (r.key name) - 1 := by
  unfold _run_agent_sync
  simp only [hreg, if_true]
  cases hex : AgentBase.execute run name payload with
  | ok v =>
    simp only [SyncState.pub]
    rw [release_slot_store]
    simp
  | error e =>
    simp only [SyncState.pub]
    rw [release_slot_store]
    simp

/-- C9: running a worker through _run_agent_sync when no slot was reserved
for it (a pipeline step naming the agent explicitly, or pick_agent's degraded
fallback, neither of which reserves) still executes the unconditional release
of the finally block, decrementing a counter that was never incremented: the
counter drops by one on every exit path, so from 0 it reaches -1 -- strictly
below zero -- and that negative value is what every subsequent capacity check
reads.  The pipeline with an explicit-name step exhibits this end to end. -/
theorem unreserved_release_underflow (r : Router) (registry : List String)
    (run : AgentRun) (name : String) (payload : Value) (tid : String)
    (st : SyncState) (data : List (String × Value))
    (hreg : registry.contains name = true) :
    ((_run_agent_sync r registry run name payload tid st).2).caps (r.key name)
      = st.caps (r.key name) - 1 ∧
    (st.caps (r.key name) = 0 →
      ((_run_agent_sync r registry run name payload tid st).2).caps (r.key name) < 0 ∧
      r.current_load ((_run_agent_sync r registry run name payload tid st).2).caps name
        = -1) ∧
    ((Orchestrator.pipeline r registry run tid [Step.agent name] data st).2).caps
        (r.key name)
      = st.caps (r.key name) - 1 := by
  have h1 := run_agent_sync_caps r registry run name payload tid st hreg
  refine ⟨h1, ?_, ?_⟩
  · intro h0
    constructor
    · rw [h1, h0]
      decide
    · unfold Router.current_load
      rw [h1, h0]
      decide
  · unfold Orchestrator.pipeline
    rcases hrun : _run_agent_sync r registry run name (Value.dict data) tid st
      with ⟨res, st2⟩
    dsimp only
    rw [hrun]
    have hc : st2.caps (r.key name) = st.caps (r.key name) - 1 := by
      have h2 := run_agent_sync_caps r registry run name (Value.dict data) tid st hreg
      rw [hrun] at h2
      exact h2
    cases res with
    | error e => simpa [SyncState.pub] using hc
    | ok v =>
      cases hm : starMerge data (resultOf v) with
      | error e => simpa [hm] using hc
      | ok d2 => simpa [hm, Orchestrator.pipeline] using hc

/-- C9 witness: on a fresh store, an explicit-name pipeline step on the demo
worker leaves its counter at -1, and the sync runner from counter 0 lands
strictly below zero. -/
theorem unreserved_release_underflow_witness :
    ((Orchestrator.pipeline demoRouter ["w"] okRun "t" [Step.agent "w"] []
        ⟨zeroStore, []⟩).2).caps (demoRouter.key "w") = -1 ∧
    ((_run_agent_sync demoRouter ["w"] okRun "w" (Value.dict []) "t"
        ⟨zeroStore, []⟩).2).caps (demoRouter.key "w") < 0 := by
  have h := unreserved_release_underflow demoRouter ["w"] okRun "w"
    (Value.dict []) "t" ⟨zeroStore, []⟩ [] (by decide)
  refine ⟨?_, (h.2.1 (by decide)).1⟩
  rw [h.2.2]
  decide

/-! ## C10: None results and the two merges -/

/-- C10: a pipeline step whose agent's run returns a non-mapping result (None
included) makes Orchestrator.pipeline raise TypeError at the merge of the
result into the accumulated payload; the Celery orchestrator's equivalent
merge guards a None result with an empty dict and proceeds with the payload
unchanged; and in general the double-star merge fails exactly on
non-mappings, so the thread-based pipeline is total only for agents whose
result is a mapping. -/
theorem pipeline_merge_typeerror (r : Router) (registry : List String)
    (run : AgentRun) (name : String) (data : List (String × Value))
    (tid : String) (st : SyncState) (v : Value)
    (hreg : registry.contains name = true)
    (hrun : run name (Value.dict data) = .ok v)
    (hv : ∀ fs, v ≠ Value.dict fs) :
    (Orchestrator.pipeline r registry run tid [Step.agent name] data st).1
      = .error "TypeError: object is not a mapping" ∧
    (∀ payload : List (String × Value),
      starMerge payload (orEmptyDict Value.none) = .ok payload) ∧
    (∀ (a : List (String × Value)) (w : Value),
      (∃ e, starMerge a w = .error e) ↔ ∀ fs, w ≠ Value.dict fs) := by
  refine ⟨?_, fun payload => rfl, ?_⟩
  · unfold Orchestrator.pipeline
    dsimp only
    unfold _run_agent_sync
    simp only [hreg, if_true]
    unfold AgentBase.execute
    rw [hrun]
    dsimp only
    have hres : resultOf (Value.dict [("agent", Value.str name),
        ("elapsed_s", Value.num 0), ("result", v)]) = v := rfl
    rw [hres]
    cases v with
    | dict fs => exact absurd rfl (hv fs)
    | none => rfl
    | bool b => rfl
    | num n => rfl
    | str s => rfl
    | list xs => rfl
  · intro a w
    cases w with
    | dict fs =>
      exact ⟨fun ⟨e, he⟩ => Except.noConfusion he, fun h => absurd rfl (h fs)⟩
    | none => exact ⟨fun _ fs h => Value.noConfusion h, fun _ => ⟨_, rfl⟩⟩
    | bool b => exact ⟨fun _ fs h => Value.noConfusion h, fun _ => ⟨_, rfl⟩⟩
    | num n => exact ⟨fun _ fs h => Value.noConfusion h, fun _ => ⟨_, rfl⟩⟩
    | str s => exact ⟨fun _ fs h => Value.noConfusion h, fun _ => ⟨_, rfl⟩⟩
    | list xs => exact ⟨fun _ fs h => Value.noConfusion h, fun _ => ⟨_, rfl⟩⟩

/-- C10 witness: an agent whose run returns None crashes the thread pipeline
with TypeError. -/
theorem pipeline_merge_typeerror_witness :
    (Orchestrator.pipeline demoRouter ["w"] noneRun "t" [Step.agent "w"] []
        ⟨zeroStore, []⟩).1 = .error "TypeError: object is not a mapping" :=
  (pipeline_merge_typeerror demoRouter ["w"] noneRun "w" [] "t" ⟨zeroStore, []⟩
    Value.none (by decide) rfl (fun fs h => Value.noConfusion h)).1

/-! ## C8: the pick contract -/

theorem keyLE_trans (a b c : Int × Int) (h1 : keyLE a b = true)
    (h2 : keyLE b c = true) : keyLE a c = true := by
  simp only [keyLE, decide_eq_true_eq] at h1 h2 ⊢
  omega

theorem keyLE_total (a b : Int × Int) : keyLE a b || keyLE b a := by
  simp only [keyLE, Bool.or_eq_true, decide_eq_true_eq]
  omega

theorem mem_insertLE (le : α → α → Bool) (x a : α) (l : List α) :
    a ∈ insertLE le x l ↔ a = x ∨ a ∈ l := by
  induction l with
  | nil => simp [insertLE]
  | cons y ys ih =>
    simp only [insertLE]
    split
    · simp [List.mem_cons]
    · simp only [List.mem_cons, ih]
      tauto

theorem insertLE_perm (le : α → α → Bool) (x : α) (l : List α) :
    List.Perm (insertLE le x l) (x :: l) := by
  induction l with
  | nil => exact List.Perm.refl _
  | cons y ys ih =>
    simp only [insertLE]
    split
    · exact List.Perm.refl _
    · exact (List.Perm.cons y ih).trans (List.Perm.swap x y ys)

theorem pySort_perm (le : α → α → Bool) (l : List α) : List.Perm (pySort le l) l := by
  induction l with
  | nil => exact List.Perm.refl _
  | cons x xs ih =>
    exact (insertLE_perm le x (pySort le xs)).trans (List.Perm.cons x ih)

theorem insertLE_sorted (le : α → α → Bool)
    (htrans : ∀ a b c, le a b = true → le b c = true → le a c = true)
    (htot : ∀ a b, le a b || le b a) (x : α) (l : List α)
    (hl : l.Pairwise (fun a b => le a b = true)) :
    (insertLE le x l).Pairwise (fun a b => le a b = true) := by
  induction l with
  | nil => simp [insertLE]
  | cons y ys ih =>
    rcases List.pairwise_cons.mp hl with ⟨hy, hys⟩
    simp only [insertLE]
    split
    · rename_i hxy
      refine List.pairwise_cons.mpr ⟨?_, hl⟩
      intro b hb
      rcases List.mem_cons.mp hb with rfl | hbys
      · exact hxy
      · exact htrans x y b hxy (hy b hbys)
    · rename_i hxy
      have hyx : le y x = true := by
        have ht := htot x y
        rw [Bool.or_eq_true] at ht
        rcases ht with h | h
        · exact absurd h hxy
        · exact h
      refine List.pairwise_cons.mpr ⟨?_, ih hys⟩
      intro b hb
      rcases (mem_insertLE le x b ys).mp hb with rfl | hbys
      · exact hyx
      · exact hy b hbys

theorem pySort_sorted (le : α → α → Bool)
    (htrans : ∀ a b c, le a b = true → le b c = true → le a c = true)
    (htot : ∀ a b, le a b || le b a) (l : List α) :
    (pySort le l).Pairwise (fun a b => le a b = true) := by
  induction l with
  | nil => exact List.Pairwise.nil
  | cons x xs ih => exact insertLE_sorted le htrans htot x (pySort le xs) ih

/-- The candidate list holds exactly the matching config entries. -/
theorem choose_mem (r : Router) (s : CapStore) (caps : List String)
    (x : String × AgentCfg) :
    x ∈ r.choose_agents_for_capability s caps ↔
      x ∈ r.config ∧ matchesAny x.2.capabilities caps = true := by
  unfold Router.choose_agents_for_capability
  rw [(pySort_perm (fun a b => keyLE (r.sortKey s a) (r.sortKey s b))
    (r.config.filter (fun y => matchesAny y.2.capabilities caps))).mem_iff,
    List.mem_filter]

/-- The candidate list is ordered by the Python sort key: priority
descending, ties broken by current load ascending. -/
theorem choose_sorted (r : Router) (s : CapStore) (caps : List String) :
    (r.choose_agents_for_capability s caps).Pairwise
      (fun a b => keyLE (r.sortKey s a) (r.sortKey s b) = true) := by
  unfold Router.choose_agents_for_capability
  exact pySort_sorted (fun a b => keyLE (r.sortKey s a) (r.sortKey s b))
    (fun a b c h1 h2 => keyLE_trans (r.sortKey s a) (r.sortKey s b) (r.sortKey s c) h1 h2)
    (fun a b => keyLE_total (r.sortKey s a) (r.sortKey s b))
    (r.config.filter (fun y => matchesAny y.2.capabilities caps))

/-- The advisory capacity check agrees with the reservation outcome when no
concurrent mutation separates them. -/
theorem capacity_ok_eq_reserve (r : Router) (s : CapStore) (n : String) :
    r.capacity_ok s n = (r.reserve_slot s n).1 := by
  have h := reserve_slot_ok_iff r s n
  unfold Router.capacity_ok Router.current_load
  cases hres : (r.reserve_slot s n).1 with
  | true =>
    rw [hres] at h
    exact decide_eq_true (by have := h.mp rfl; omega)
  | false =>
    rw [hres] at h
    refine decide_eq_false (fun hx => ?_)
    have : False := by
      have h2 := h.mpr (by omega)
      simp at h2
    exact this

/-- The pick loop returns the first candidate whose reservation succeeds,
with the store after that reservation; when none succeeds the store comes
back untouched. -/
theorem pickLoop_eq (r : Router) (s : CapStore) (cands : List (String × AgentCfg)) :
    r.pickLoop cands s =
      match cands.find? (fun x => (r.reserve_slot s x.1).1) with
      | some x => (some (x.1, x.2.queue.getD "general"), (r.reserve_slot s x.1).2)
      | Option.none => (Option.none, s) := by
  induction cands with
  | nil => rfl
  | cons hd rest ih =>
    rcases hd with ⟨n, cfg⟩
    rw [Router.pickLoop]
    by_cases hc : r.capacity_ok s n = true
    · have hres : (r.reserve_slot s n).1 = true := by
        rw [← capacity_ok_eq_reserve]; exact hc
      have heq : r.reserve_slot s n = (true, (r.reserve_slot s n).2) := by
        rw [← hres]
      rw [if_pos hc, heq, List.find?_cons_of_pos rest
        (show ((fun x => (r.reserve_slot s x.1).1) (n, cfg)) = true from hres)]
    · have hcf : r.capacity_ok s n = false := by
        cases h : r.capacity_ok s n
        · rfl
        · exact absurd h hc
      have hresf : (r.reserve_slot s n).1 = false := by
        rw [← capacity_ok_eq_reserve]; exact hcf
      rw [if_neg hc, List.find?_cons_of_neg rest
        (show ¬ ((fun x => (r.reserve_slot s x.1).1) (n, cfg)) = true from by
          simp [hresf]), ih]

/-- C8: pick_agent iterates the candidate list -- exactly the workers whose
capabilities intersect the request, ordered by priority descending with ties
by current load ascending -- and returns the first candidate whose
reservation succeeds together with its configured queue, the chosen
counter incremented (slot held); when no candidate has capacity it returns
the single best candidate with the counter store untouched (no slot held);
and it returns none exactly when the capability set matches no registered
worker. -/
theorem pick_agent_contract (r : Router) (s : CapStore) (caps : List String) :
    (∀ x, x ∈ r.choose_agents_for_capability s caps ↔
        x ∈ r.config ∧ matchesAny x.2.capabilities caps = true) ∧
    (r.choose_agents_for_capability s caps).Pairwise
      (fun a b => keyLE (r.sortKey s a) (r.sortKey s b) = true) ∧
    (∀ x, (r.choose_agents_for_capability s caps).find?
          (fun y => (r.reserve_slot s y.1).1) = some x →
      r.pick_agent s caps
        = (some (x.1, x.2.queue.getD "general"), (r.reserve_slot s x.1).2)) ∧
    ((r.choose_agents_for_capability s caps).find?
          (fun y => (r.reserve_slot s y.1).1) = Option.none →
      ∀ x0 rest, r.choose_agents_for_capability s caps = x0 :: rest →
        r.pick_agent s caps = (some (x0.1, x0.2.queue.getD "general"), s)) ∧
    ((r.pick_agent s caps).1 = Option.none ↔
      r.config.filter (fun x => matchesAny x.2.capabilities caps) = []) := by
  refine ⟨choose_mem r s caps, choose_sorted r s caps, ?_, ?_, ?_⟩
  · intro x hfind
    unfold Router.pick_agent
    dsimp only
    rw [pickLoop_eq, hfind]
  · intro hfind x0 rest hcands
    unfold Router.pick_agent
    dsimp only
    rw [pickLoop_eq, hfind, hcands]
  · constructor
    · intro hnone
      rcases hc : r.choose_agents_for_capability s caps with _ | ⟨x0, rest⟩
      · have hp := (pySort_perm
            (fun a b => keyLE (r.sortKey s a) (r.sortKey s b))
            (r.config.filter (fun x => matchesAny x.2.capabilities caps))).symm
        rw [Router.choose_agents_for_capability] at hc
        rw [hc] at hp
        exact hp.eq_nil
      · exfalso
        unfold Router.pick_agent at hnone
        dsimp only at hnone
        rw [pickLoop_eq, hc] at hnone
        cases hfind : (x0 :: rest).find? (fun y => (r.reserve_slot s y.1).1) with
        | some x =>
          rw [hfind] at hnone
          simp at hnone
        | none =>
          rw [hfind] at hnone
          simp at hnone
    · intro hfil
      unfold Router.pick_agent Router.choose_agents_for_capability
      rw [hfil]
      rfl

/-- C8 witness: with both demo validators idle, the higher-priority validator
b is picked first with its queue qb and its counter incremented. -/
theorem pick_agent_contract_witness :
    demoRouter2.pick_agent zeroStore ["validation"]
      = (some ("b", "qb"), (demoRouter2.reserve_slot zeroStore "b").2) := by
  have h := (pick_agent_contract demoRouter2 zeroStore ["validation"]).2.2.1
    ("b", bCfg) (by decide)
  simpa using h

end SkySim
